import Mathlib

/-!
Shallow embedding of the duplicate-issue detector in
`.github/scripts/cleanup-duplicates.js` (the AI-verified three-tier
variant of `run`), together with the index reconciliation protocol and
the closed-issue cleanup script.  Similarity scores and confidences are
modelled as rationals, the vector index as a list of records, and the
fallible external collaborators (embedding provider, AI verifier) as
explicit outcome values.
-/

namespace DupBot

/-- The rational n/100, written via `Rat.divInt` so that concrete
instances reduce by kernel computation. -/
def pct (n : Int) : ℚ := Rat.divInt n 100

/-- Generic stable insertion of `x` into a list kept in descending `score`
order: `x` goes before the first strictly smaller element.  Models the
JavaScript `sort((a, b) => b.similarity - a.similarity)` comparator. -/
def orderedInsertDesc (score : α → ℚ) (x : α) : List α → List α
  | [] => [x]
  | y :: ys => if score x < score y then y :: orderedInsertDesc score x ys else x :: y :: ys

/-- Sort a list into descending `score` order. -/
def sortByScoreDesc (score : α → ℚ) : List α → List α
  | [] => []
  | x :: xs => orderedInsertDesc score x (sortByScoreDesc score xs)

/-- One match returned by the Pinecone similarity query: optional
`metadata.issue_number`, the similarity `score`, and optional
`metadata.title`. -/
structure QueryMatch where
  issue_number : Option Int
  score : ℚ
  title : Option String
deriving DecidableEq, Repr

/-- One entry of the `duplicates` array built in `run`:
`{ number, similarity, title }`. A missing (or, by JavaScript falsiness,
zero) issue number becomes `none`, mirroring `|| "Unknown"`. -/
structure Candidate where
  number : Option Int
  similarity : ℚ
  title : String
deriving DecidableEq, Repr

/-- Convert one query match into a `duplicates` entry, as in
`{ number: r.metadata?.issue_number || "Unknown", similarity: r.score,
title: r.metadata?.title || "Unknown" }`. -/
def toCandidate (r : QueryMatch) : Candidate :=
  { number := match r.issue_number with
      | some n => if n = 0 then none else some n
      | none => none
    similarity := r.score
    title := match r.title with
      | some t => if t = "" then "Unknown" else t
      | none => "Unknown" }

/-- A valid AI verification verdict, as returned by `verifyWithAI` when
`enabled` and `valid` are both true.  Invalid, unparseable or errored
verification attempts never enter `aiVerdicts` in the source, so the
verdict map is modelled as an association list holding only valid
verdicts. -/
structure AIVerdict where
  is_duplicate : Bool
  confidence : ℚ
  reason : String
deriving DecidableEq, Repr

/-- Look up the verdict recorded for a candidate's issue number
(`aiVerdicts.get(d.number)`); candidates with an unknown number have no
verdict. -/
def lookupVerdict (verdicts : List (Int × AIVerdict)) : Option Int → Option AIVerdict
  | some n => verdicts.lookup n
  | none => none

/-- The veto predicate `passesAI` of `run`:
`v && v.valid && v.is_duplicate === true && v.confidence >= AI_THRESHOLD`. -/
def passesAI (aiThreshold : ℚ) (verdicts : List (Int × AIVerdict)) (d : Candidate) : Bool :=
  match lookupVerdict verdicts d.number with
  | some v => v.is_duplicate && decide (aiThreshold ≤ v.confidence)
  | none => false

/-- `filteredResults`: drop any query match whose metadata issue number
equals the subject issue's number
(`results.filter(r => r.metadata?.issue_number !== ISSUE_NUMBER)`). -/
def filteredResultsOf (results : List QueryMatch) (selfId : Int) : List QueryMatch :=
  results.filter (fun r => r.issue_number ≠ some selfId)

/-- The `duplicates` array: self-excluded matches with score at least
0.55, mapped to candidates and sorted by similarity descending. -/
def duplicatesOf (results : List QueryMatch) (selfId : Int) : List Candidate :=
  sortByScoreDesc (fun c => c.similarity)
    (((filteredResultsOf results selfId).filter (fun r => decide (pct 55 ≤ r.score))).map
      toCandidate)

/-- `highSimilarityDuplicates = duplicates.filter(d => d.similarity >= 0.85)`. -/
def highBandOf (ds : List Candidate) : List Candidate :=
  ds.filter (fun d => decide (pct 85 ≤ d.similarity))

/-- `mediumSimilarityDuplicates = duplicates.filter(d => d.similarity >= 0.55 && d.similarity < 0.85)`. -/
def mediumBandOf (ds : List Candidate) : List Candidate :=
  ds.filter (fun d => decide (pct 55 ≤ d.similarity) && decide (d.similarity < pct 85))

/-- The high band after the optional AI veto: when `AI_ENABLED`, only
candidates passing `passesAI` survive; otherwise the band passes through
unfiltered. -/
def verifiedHighOf (aiEnabled : Bool) (aiThreshold : ℚ) (verdicts : List (Int × AIVerdict))
    (ds : List Candidate) : List Candidate :=
  if aiEnabled then (highBandOf ds).filter (passesAI aiThreshold verdicts) else highBandOf ds

/-- The medium band after the optional AI veto. -/
def verifiedMedOf (aiEnabled : Bool) (aiThreshold : ℚ) (verdicts : List (Int × AIVerdict))
    (ds : List Candidate) : List Candidate :=
  if aiEnabled then (mediumBandOf ds).filter (passesAI aiThreshold verdicts) else mediumBandOf ds

/-- Outcome of the three-tier decision in `run`: the chosen
`duplicateAction`, the two side-effect flags, and the top surviving
match of the chosen band (the head of the sorted band, which the source
reads as `highSimilarityDuplicates[0]` / `mediumSimilarityDuplicates[0]`). -/
structure RunDecision where
  duplicateAction : String
  shouldUpdateVector : Bool
  shouldAutoClose : Bool
  topMatch : Option Candidate
deriving DecidableEq, Repr

/-- The three-tier classification of `run` (lines 554-659): band
partition at 0.85 / 0.55, optional AI veto, then tier precedence
high, medium, unique with the associated side-effect flags. -/
def classifyDuplicates (aiEnabled : Bool) (aiThreshold : ℚ) (verdicts : List (Int × AIVerdict))
    (results : List QueryMatch) (selfId : Int) (isEditingExistingIssue : Bool) : RunDecision :=
  let ds := duplicatesOf results selfId
  let hs := verifiedHighOf aiEnabled aiThreshold verdicts ds
  let ms := verifiedMedOf aiEnabled aiThreshold verdicts ds
  if hs.isEmpty then
    if ms.isEmpty then
      { duplicateAction := "unique", shouldUpdateVector := true,
        shouldAutoClose := false, topMatch := none }
    else
      { duplicateAction := "flag-related", shouldUpdateVector := true,
        shouldAutoClose := false, topMatch := ms.head? }
  else
    { duplicateAction := "auto-close", shouldUpdateVector := false,
      shouldAutoClose := !isEditingExistingIssue, topMatch := hs.head? }

/-- Body of the embedding HTTP response as seen by `generateEmbedding`:
either an in-band failure (`data.error` set, or `data.embedding.values`
missing) or a list of values. -/
inductive EmbedResponse where
  | errorField
  | ok (values : List ℚ)
deriving DecidableEq, Repr

/-- Outcome of the embedding call including the transport layer: either
the wrapped `retryApiCall` rethrew an exception, or an HTTP response body
was produced. -/
inductive ProviderOutcome where
  | thrown
  | response (r : EmbedResponse)
deriving DecidableEq, Repr

/-- Response handling inside `generateEmbedding`: in-band failures yield
`Array(1024).fill(0.01)`; otherwise the value list is zero-padded or
truncated to length 1024. -/
def processEmbeddingResponse (r : EmbedResponse) : List ℚ :=
  match r with
  | .errorField => List.replicate 1024 (pct 1)
  | .ok values =>
    if values.length < 1024 then values ++ List.replicate (1024 - values.length) 0
    else if 1024 < values.length then values.take 1024
    else values

/-- `generateEmbedding` as a whole: a thrown transport error propagates
out of the function (no vector is returned), every received response is
handled by `processEmbeddingResponse`. -/
def generateEmbedding (o : ProviderOutcome) : Option (List ℚ) :=
  match o with
  | .thrown => none
  | .response r => some (processEmbeddingResponse r)

/-- A record persisted in the Pinecone index, reduced to the fields the
reconciliation protocol reads: the generated vector id and the
`metadata.issue_number`. -/
structure VectorRec where
  vid : Nat
  issue_number : Int
deriving DecidableEq, Repr

/-- `findExistingVectors`-style lookup: the ids of all records whose
metadata issue number equals the target (the filtered query, or the
exhaustive `listPaginated` fallback, both select exactly these). -/
def findExistingVectors (st : List VectorRec) (n : Int) : List Nat :=
  (st.filter (fun r => r.issue_number = n)).map (fun r => r.vid)

/-- `index.deleteMany(ids)`: remove every record whose id is listed. -/
def deleteByIds (st : List VectorRec) (ids : List Nat) : List VectorRec :=
  st.filter (fun r => !ids.contains r.vid)

/-- `index.upsert([rec])`: replace any record with the same id, then
store the new record. -/
def upsertRec (st : List VectorRec) (rec : VectorRec) : List VectorRec :=
  st.filter (fun r => r.vid ≠ rec.vid) ++ [rec]

/-- The vector-update tail of `run` (lines 733-801): when
`shouldUpdateVector` is false nothing is touched; when editing, the old
ids are deleted first and the upsert is never reached if `deleteMany`
throws (`safeVectorOperation` rethrows into the outer catch); otherwise
one new record is upserted.  The boolean result records whether the
upsert was attempted. -/
def updateVectors (st : List VectorRec) (shouldUpdate isEditing : Bool)
    (existingIds : List Nat) (newRec : VectorRec) (deleteThrows : Bool) :
    List VectorRec × Bool :=
  if !shouldUpdate then (st, false)
  else if isEditing then
    if existingIds.isEmpty then (upsertRec st newRec, true)
    else if deleteThrows then (st, false)
    else (upsertRec (deleteByIds st existingIds) newRec, true)
  else (upsertRec st newRec, true)

/-- Number of records currently held for one issue. -/
def countIssue (st : List VectorRec) (n : Int) : Nat :=
  (st.filter (fun r => r.issue_number = n)).length

/-- One lifecycle event for a single issue: a duplicate-check run whose
classification chose `shouldUpdateVector = su` and which would persist
under the fresh vector id `freshVid`, or the close-triggered cleanup
(`cleanup-closed-issue.js`), which lists this issue's vector ids and
deletes them. -/
inductive IssueEvent where
  | check (su : Bool) (freshVid : Nat)
  | close
deriving DecidableEq, Repr

/-- Effect of one lifecycle event on the index, with `isEditing` derived
from the ids found for this issue, as in `run`. -/
def stepIssue (n : Int) (st : List VectorRec) : IssueEvent → List VectorRec
  | .check su fresh =>
      let existing := findExistingVectors st n
      (updateVectors st su (!existing.isEmpty) existing ⟨fresh, n⟩ false).1
  | .close => deleteByIds st (findExistingVectors st n)

/-- The similarity query of `run`: the index returns the `topK`
highest-scoring matches (`index.query({vector, topK: 10, ...})`). -/
def queryTopK (entries : List QueryMatch) (k : Nat) : List QueryMatch :=
  (sortByScoreDesc (fun r => r.score) entries).take k

/-- The backquote character (code point 96). -/
def backquote : Char := Char.ofNat 96

/-- Replacement text for one escaped code fence: backslash-backquote
three times, the expansion of the source literal. -/
def escapedFence : List Char := ['\\', backquote, '\\', backquote, '\\', backquote]

/-- Whitespace as matched by the character class in the script-tag
pattern, restricted to its ASCII and no-break-space members. -/
def jsSpace (c : Char) : Bool :=
  c = ' ' || c = '\t' || c = '\n' || c = '\r' ||
  c = Char.ofNat 11 || c = Char.ofNat 12 || c = Char.ofNat 160

/-- Escape every run of three backquotes, scanning left to right
(the first sanitizing replace of `sanitizeForPrompt`). -/
def escapeFences : List Char → List Char
  | c1 :: c2 :: c3 :: rest =>
    if c1 = backquote ∧ c2 = backquote ∧ c3 = backquote then
      escapedFence ++ escapeFences rest
    else c1 :: escapeFences (c2 :: c3 :: rest)
  | l => l

/-- Case-insensitive literal matching: when the input starts with the
given (lower-case) pattern up to `Char.toLower`, return the remaining
input. -/
def matchCI : List Char → List Char → Option (List Char)
  | [], l => some l
  | _ :: _, [] => none
  | p :: ps, c :: cs => if c.toLower = p then matchCI ps cs else none

/-- Recognise one occurrence of the pattern
`< \s* /? \s* script \s* >` (case-insensitive) at the head of the input,
returning the input after the closing angle bracket. -/
def matchScriptTag (l : List Char) : Option (List Char) :=
  match l with
  | c :: rest =>
    if c = '<' then
      let r1 := rest.dropWhile jsSpace
      let r2 := if r1.head? = some '/' then r1.tail.dropWhile jsSpace else r1
      match matchCI ['s', 'c', 'r', 'i', 'p', 't'] r2 with
      | some r3 =>
        let r4 := r3.dropWhile jsSpace
        if r4.head? = some '>' then some r4.tail else none
      | none => none
    else none
  | [] => none

/-- Left-to-right removal of script-tag occurrences, recursing on a
character-count fuel: one input character is consumed per step, so fuel
equal to the input length never runs out. -/
def stripScriptTagsAux (fuel : Nat) (l : List Char) : List Char :=
  match fuel, l with
  | 0, l => l
  | _ + 1, [] => []
  | fuel + 1, c :: rest =>
    match matchScriptTag (c :: rest) with
    | some r => stripScriptTagsAux fuel r
    | none => c :: stripScriptTagsAux fuel rest

/-- All occurrences of the script-tag pattern removed, scanning left to
right (the second sanitizing replace). -/
def stripScriptTags (l : List Char) : List Char :=
  stripScriptTagsAux l.length l

/-- Left-to-right replacement of the case-insensitive token `t :: ts`
by the literal `rep` (replacements are not rescanned), recursing on a
character-count fuel as in `stripScriptTagsAux`. -/
def replaceTokenAux (t : Char) (ts rep : List Char) (fuel : Nat) (l : List Char) :
    List Char :=
  match fuel, l with
  | 0, l => l
  | _ + 1, [] => []
  | fuel + 1, c :: rest =>
    match matchCI (t :: ts) (c :: rest) with
    | some r => rep ++ replaceTokenAux t ts rep fuel r
    | none => c :: replaceTokenAux t ts rep fuel rest

/-- Replace every case-insensitive occurrence of the token `t :: ts`
with the literal `rep` (the two token-neutralizing replaces). -/
def replaceToken (t : Char) (ts rep : List Char) (l : List Char) : List Char :=
  replaceTokenAux t ts rep l.length l

/-- The four bidirectional-control characters stripped by the fifth
sanitizing replace: U+202E, U+202D, U+202B, U+202A. -/
def isBidiControl (c : Char) : Bool :=
  c = Char.ofNat 0x202E || c = Char.ofNat 0x202D ||
  c = Char.ofNat 0x202B || c = Char.ofNat 0x202A

/-- Collapse every run of three or more newlines into exactly two (the
final sanitizing replace): while a newline starts a run of at least
three, it is dropped. -/
def collapseNewlines : List Char → List Char
  | [] => []
  | c :: rest =>
    if c = '\n' ∧ rest.head? = some '\n' ∧ rest.tail.head? = some '\n' then
      collapseNewlines rest
    else c :: collapseNewlines rest

/-- The zero-width space U+200B inserted by the token neutralizer. -/
def zwsp : Char := Char.ofNat 0x200B

/-- `sanitizeForPrompt` of `verifyWithAI`: escape code fences, strip
script-tag markers, neutralize `@assistant` and `@system` with a
zero-width space, strip bidirectional-control characters, and collapse
newline runs, in the order of the source's replace chain. -/
def sanitizeForPrompt (s : String) : String :=
  String.mk
    (collapseNewlines
      ((replaceToken '@' ['s', 'y', 's', 't', 'e', 'm']
          ('@' :: zwsp :: ['s', 'y', 's', 't', 'e', 'm'])
        (replaceToken '@' ['a', 's', 's', 'i', 's', 't', 'a', 'n', 't']
            ('@' :: zwsp :: ['a', 's', 's', 'i', 's', 't', 'a', 'n', 't'])
          (stripScriptTags (escapeFences s.data)))).filter (fun c => !isBidiControl c)))

/-- `truncate` of `verifyWithAI`: cap a string at 4000 characters. -/
def truncate4000 (s : String) : String :=
  if 4000 < s.length then String.mk (s.data.take 4000) else s

/-- A title field of the verification prompt: sanitized, not truncated
(`Title: ${aTitle}`). -/
def promptTitleField (title : String) : String :=
  sanitizeForPrompt title

/-- A body field of the verification prompt: sanitized, then truncated
(`Body:\n${truncate(aBody)}`). -/
def promptBodyField (body : String) : String :=
  truncate4000 (sanitizeForPrompt body)

/-- Remove leading and trailing whitespace, the character-level model
of JavaScript `String.prototype.trim`. -/
def trimChars (l : List Char) : List Char :=
  ((l.dropWhile jsSpace).reverse.dropWhile jsSpace).reverse

/-- `newText`: title and body joined by a space and trimmed
(a null body contributes the empty string). -/
def combinedIssueText (title : String) (body : Option String) : String :=
  String.mk (trimChars (title ++ " " ++ body.getD "").data)

/-- Terminal outcome of one `run`. -/
inductive RunOutcome where
  | skippedPullRequest
  | tooShort
  | completed (d : RunDecision)
deriving DecidableEq, Repr

/-- One duplicate-check run end to end: skip pull requests, stop with
the "too short" comment before any embedding or classification work when
the trimmed text is under 10 characters, otherwise query the top 10
neighbours, classify, and apply the vector update dictated by the
decision.  `entries` carries each indexed record's similarity to the
current issue text; `st` is the persisted index state. -/
def runCheckIssue (isPR : Bool) (title : String) (body : Option String)
    (entries : List QueryMatch) (selfId : Int) (aiEnabled : Bool) (aiThreshold : ℚ)
    (verdicts : List (Int × AIVerdict)) (st : List VectorRec) (freshVid : Nat) :
    RunOutcome × List VectorRec :=
  if isPR then (.skippedPullRequest, st)
  else if (combinedIssueText title body).length < 10 then (.tooShort, st)
  else
    let existing := findExistingVectors st selfId
    let isEditing := !existing.isEmpty
    let results := queryTopK entries 10
    let d := classifyDuplicates aiEnabled aiThreshold verdicts results selfId isEditing
    (.completed d, (updateVectors st d.shouldUpdateVector isEditing existing ⟨freshVid, selfId⟩ false).1)

/-! Helper lemmas: the descending sort, the `duplicates` array, the
bands, and membership of the classifier's `topMatch`. -/

theorem mem_orderedInsertDesc (score : α → ℚ) (x a : α) :
    ∀ (l : List α), a ∈ orderedInsertDesc score x l ↔ a = x ∨ a ∈ l := by
  intro l
  induction l with
  | nil => simp [orderedInsertDesc]
  | cons y ys ih =>
    simp only [orderedInsertDesc]
    split
    · simp only [List.mem_cons, ih]
      tauto
    · simp only [List.mem_cons]

theorem mem_sortByScoreDesc (score : α → ℚ) (a : α) :
    ∀ (l : List α), a ∈ sortByScoreDesc score l ↔ a ∈ l := by
  intro l
  induction l with
  | nil => simp [sortByScoreDesc]
  | cons y ys ih =>
    simp only [sortByScoreDesc, mem_orderedInsertDesc, ih, List.mem_cons]

theorem pairwise_orderedInsertDesc (score : α → ℚ) (x : α) :
    ∀ (l : List α), (l.Pairwise fun a b => score b ≤ score a) →
      ((orderedInsertDesc score x l).Pairwise fun a b => score b ≤ score a) := by
  intro l
  induction l with
  | nil => simp [orderedInsertDesc]
  | cons y ys ih =>
    intro hp
    rw [List.pairwise_cons] at hp
    obtain ⟨hy, hys⟩ := hp
    simp only [orderedInsertDesc]
    split
    · rename_i hlt
      rw [List.pairwise_cons]
      refine ⟨?_, ih hys⟩
      intro b hb
      rcases (mem_orderedInsertDesc score x b ys).mp hb with rfl | hb
      · exact le_of_lt hlt
      · exact hy b hb
    · rename_i hge
      rw [List.pairwise_cons]
      refine ⟨?_, List.pairwise_cons.mpr ⟨hy, hys⟩⟩
      intro b hb
      rcases List.mem_cons.mp hb with rfl | hb
      · exact le_of_not_lt hge
      · exact le_trans (hy b hb) (le_of_not_lt hge)

theorem pairwise_sortByScoreDesc (score : α → ℚ) :
    ∀ (l : List α), (sortByScoreDesc score l).Pairwise fun a b => score b ≤ score a := by
  intro l
  induction l with
  | nil => simp [sortByScoreDesc]
  | cons y ys ih => exact pairwise_orderedInsertDesc score y _ ih

theorem head?_max_of_pairwise (score : α → ℚ) (l : List α)
    (hp : l.Pairwise fun a b => score b ≤ score a) (c : α) (hc : l.head? = some c) :
    ∀ a ∈ l, score a ≤ score c := by
  cases l with
  | nil => simp at hc
  | cons y ys =>
    injection hc with hc
    subst hc
    rw [List.pairwise_cons] at hp
    intro a ha
    rcases List.mem_cons.mp ha with rfl | ha
    · exact le_refl _
    · exact hp.1 a ha

theorem mem_duplicatesOf {c : Candidate} {results : List QueryMatch} {selfId : Int} :
    c ∈ duplicatesOf results selfId ↔
      ∃ r ∈ results, r.issue_number ≠ some selfId ∧ pct 55 ≤ r.score ∧
        toCandidate r = c := by
  unfold duplicatesOf filteredResultsOf
  rw [mem_sortByScoreDesc]
  simp only [List.mem_map, List.mem_filter, decide_eq_true_eq]
  constructor
  · rintro ⟨r, ⟨⟨hr, hne⟩, hsc⟩, hc⟩
    exact ⟨r, hr, hne, hsc, hc⟩
  · rintro ⟨r, hr, hne, hsc, hc⟩
    exact ⟨r, ⟨⟨hr, hne⟩, hsc⟩, hc⟩

theorem pairwise_duplicatesOf (results : List QueryMatch) (selfId : Int) :
    (duplicatesOf results selfId).Pairwise fun a b => b.similarity ≤ a.similarity :=
  pairwise_sortByScoreDesc (fun c : Candidate => c.similarity) _

theorem sim_of_mem_duplicatesOf {c : Candidate} {results : List QueryMatch} {selfId : Int}
    (h : c ∈ duplicatesOf results selfId) : pct 55 ≤ c.similarity := by
  obtain ⟨r, _, _, hsc, hc⟩ := mem_duplicatesOf.mp h
  subst hc
  exact hsc

theorem number_ne_of_mem_duplicatesOf {c : Candidate} {results : List QueryMatch}
    {selfId : Int} (h : c ∈ duplicatesOf results selfId) : c.number ≠ some selfId := by
  obtain ⟨r, _, hne, _, hc⟩ := mem_duplicatesOf.mp h
  subst hc
  unfold toCandidate
  cases hr : r.issue_number with
  | none => simp
  | some n =>
    simp only
    split
    · simp
    · intro hcontra
      injection hcontra with hcontra
      subst hcontra
      exact hne (by rw [hr])

theorem mem_highBandOf {c : Candidate} {ds : List Candidate} :
    c ∈ highBandOf ds ↔ c ∈ ds ∧ pct 85 ≤ c.similarity := by
  simp [highBandOf, List.mem_filter]

theorem mem_mediumBandOf {c : Candidate} {ds : List Candidate} :
    c ∈ mediumBandOf ds ↔ c ∈ ds ∧ pct 55 ≤ c.similarity ∧
      c.similarity < pct 85 := by
  simp [mediumBandOf, List.mem_filter]

theorem mem_verifiedHighOf {c : Candidate} {aiEnabled : Bool} {thr : ℚ}
    {verdicts : List (Int × AIVerdict)} {ds : List Candidate} :
    c ∈ verifiedHighOf aiEnabled thr verdicts ds ↔
      c ∈ highBandOf ds ∧ (aiEnabled = true → passesAI thr verdicts c = true) := by
  unfold verifiedHighOf
  cases aiEnabled <;> simp [List.mem_filter]

theorem mem_verifiedMedOf {c : Candidate} {aiEnabled : Bool} {thr : ℚ}
    {verdicts : List (Int × AIVerdict)} {ds : List Candidate} :
    c ∈ verifiedMedOf aiEnabled thr verdicts ds ↔
      c ∈ mediumBandOf ds ∧ (aiEnabled = true → passesAI thr verdicts c = true) := by
  unfold verifiedMedOf
  cases aiEnabled <;> simp [List.mem_filter]

theorem pairwise_verifiedHighOf (aiEnabled : Bool) (thr : ℚ)
    (verdicts : List (Int × AIVerdict)) (results : List QueryMatch) (selfId : Int) :
    (verifiedHighOf aiEnabled thr verdicts (duplicatesOf results selfId)).Pairwise
      fun a b => b.similarity ≤ a.similarity := by
  have hds := pairwise_duplicatesOf results selfId
  unfold verifiedHighOf highBandOf
  cases aiEnabled
  · exact hds.filter _
  · exact (hds.filter _).filter _

theorem pairwise_verifiedMedOf (aiEnabled : Bool) (thr : ℚ)
    (verdicts : List (Int × AIVerdict)) (results : List QueryMatch) (selfId : Int) :
    (verifiedMedOf aiEnabled thr verdicts (duplicatesOf results selfId)).Pairwise
      fun a b => b.similarity ≤ a.similarity := by
  have hds := pairwise_duplicatesOf results selfId
  unfold verifiedMedOf mediumBandOf
  cases aiEnabled
  · exact hds.filter _
  · exact (hds.filter _).filter _

theorem topMatch_mem {aiEnabled : Bool} {thr : ℚ} {verdicts : List (Int × AIVerdict)}
    {results : List QueryMatch} {selfId : Int} {isEditing : Bool} {c : Candidate}
    (h : (classifyDuplicates aiEnabled thr verdicts results selfId isEditing).topMatch =
      some c) : c ∈ duplicatesOf results selfId := by
  simp only [classifyDuplicates] at h
  split at h
  · split at h
    · simp at h
    · cases hms : verifiedMedOf aiEnabled thr verdicts (duplicatesOf results selfId) with
      | nil => rw [hms] at h; simp at h
      | cons m t =>
        rw [hms] at h
        simp only [List.head?_cons] at h
        injection h with h
        subst h
        have : m ∈ verifiedMedOf aiEnabled thr verdicts (duplicatesOf results selfId) := by
          rw [hms]; exact List.mem_cons_self _ _
        exact (mem_mediumBandOf.mp (mem_verifiedMedOf.mp this).1).1
  · cases hhs : verifiedHighOf aiEnabled thr verdicts (duplicatesOf results selfId) with
    | nil => rw [hhs] at h; simp at h
    | cons m t =>
      rw [hhs] at h
      simp only [List.head?_cons] at h
      injection h with h
      subst h
      have : m ∈ verifiedHighOf aiEnabled thr verdicts (duplicatesOf results selfId) := by
        rw [hhs]; exact List.mem_cons_self _ _
      exact (mem_highBandOf.mp (mem_verifiedHighOf.mp this).1).1

/-- Claim C1: after self-exclusion and any verifier veto, candidates are
partitioned by the fixed thresholds HIGH = 0.85 and MEDIUM = 0.55 into a
high band and a medium band, candidates below 0.55 are discarded, the
tier is chosen by precedence (non-empty high band gives "auto-close",
else non-empty medium band gives "flag-related", else "unique"), and
within the chosen band `topMatch` is the highest-scoring surviving
candidate. -/
theorem claim1_three_tier_classification (aiEnabled : Bool) (thr : ℚ)
    (verdicts : List (Int × AIVerdict)) (results : List QueryMatch)
    (selfId : Int) (isEditing : Bool) :
    (∀ c ∈ verifiedHighOf aiEnabled thr verdicts (duplicatesOf results selfId),
        pct 85 ≤ c.similarity) ∧
    (∀ c ∈ verifiedMedOf aiEnabled thr verdicts (duplicatesOf results selfId),
        pct 55 ≤ c.similarity ∧ c.similarity < pct 85) ∧
    (∀ c ∈ duplicatesOf results selfId,
        (aiEnabled = true → passesAI thr verdicts c = true) →
        (pct 85 ≤ c.similarity →
            c ∈ verifiedHighOf aiEnabled thr verdicts (duplicatesOf results selfId)) ∧
        (c.similarity < pct 85 →
            c ∈ verifiedMedOf aiEnabled thr verdicts (duplicatesOf results selfId))) ∧
    (verifiedHighOf aiEnabled thr verdicts (duplicatesOf results selfId) ≠ [] →
        (classifyDuplicates aiEnabled thr verdicts results selfId isEditing).duplicateAction =
          "auto-close" ∧
        ∃ c, (classifyDuplicates aiEnabled thr verdicts results selfId isEditing).topMatch =
            some c ∧
          c ∈ verifiedHighOf aiEnabled thr verdicts (duplicatesOf results selfId) ∧
          ∀ y ∈ verifiedHighOf aiEnabled thr verdicts (duplicatesOf results selfId),
            y.similarity ≤ c.similarity) ∧
    (verifiedHighOf aiEnabled thr verdicts (duplicatesOf results selfId) = [] →
      verifiedMedOf aiEnabled thr verdicts (duplicatesOf results selfId) ≠ [] →
        (classifyDuplicates aiEnabled thr verdicts results selfId isEditing).duplicateAction =
          "flag-related" ∧
        ∃ c, (classifyDuplicates aiEnabled thr verdicts results selfId isEditing).topMatch =
            some c ∧
          c ∈ verifiedMedOf aiEnabled thr verdicts (duplicatesOf results selfId) ∧
          ∀ y ∈ verifiedMedOf aiEnabled thr verdicts (duplicatesOf results selfId),
            y.similarity ≤ c.similarity) ∧
    (verifiedHighOf aiEnabled thr verdicts (duplicatesOf results selfId) = [] →
      verifiedMedOf aiEnabled thr verdicts (duplicatesOf results selfId) = [] →
        (classifyDuplicates aiEnabled thr verdicts results selfId isEditing).duplicateAction =
          "unique" ∧
        (classifyDuplicates aiEnabled thr verdicts results selfId isEditing).topMatch =
          none) ∧
    (∀ c, (classifyDuplicates aiEnabled thr verdicts results selfId isEditing).topMatch =
        some c → pct 55 ≤ c.similarity) := by
  refine ⟨?_, ?_, ?_, ?_, ?_, ?_, ?_⟩
  · intro c hc
    exact (mem_highBandOf.mp (mem_verifiedHighOf.mp hc).1).2
  · intro c hc
    exact (mem_mediumBandOf.mp (mem_verifiedMedOf.mp hc).1).2
  · intro c hc hpass
    constructor
    · intro hhi
      exact mem_verifiedHighOf.mpr ⟨mem_highBandOf.mpr ⟨hc, hhi⟩, hpass⟩
    · intro hlt
      exact mem_verifiedMedOf.mpr
        ⟨mem_mediumBandOf.mpr ⟨hc, sim_of_mem_duplicatesOf hc, hlt⟩, hpass⟩
  · intro hne
    rcases hh : verifiedHighOf aiEnabled thr verdicts (duplicatesOf results selfId) with
      _ | ⟨m, t⟩
    · exact absurd hh hne
    refine ⟨by simp [classifyDuplicates, hh], m, by simp [classifyDuplicates, hh], ?_, ?_⟩
    · exact List.mem_cons_self _ _
    · intro y hy
      have hp : (m :: t).Pairwise fun a b => b.similarity ≤ a.similarity := by
        rw [← hh]
        exact pairwise_verifiedHighOf aiEnabled thr verdicts results selfId
      exact head?_max_of_pairwise (fun c : Candidate => c.similarity) (m :: t) hp m rfl y hy
  · intro hhe hne
    rcases hm : verifiedMedOf aiEnabled thr verdicts (duplicatesOf results selfId) with
      _ | ⟨m, t⟩
    · exact absurd hm hne
    refine ⟨by simp [classifyDuplicates, hhe, hm], m,
      by simp [classifyDuplicates, hhe, hm], ?_, ?_⟩
    · exact List.mem_cons_self _ _
    · intro y hy
      have hp : (m :: t).Pairwise fun a b => b.similarity ≤ a.similarity := by
        rw [← hm]
        exact pairwise_verifiedMedOf aiEnabled thr verdicts results selfId
      exact head?_max_of_pairwise (fun c : Candidate => c.similarity) (m :: t) hp m rfl y hy
  · intro hhe hme
    constructor <;> simp [classifyDuplicates, hhe, hme]
  · intro c hc
    exact sim_of_mem_duplicatesOf (topMatch_mem hc)

/-- Witness for claim C1, at the spec's scenario with candidates of
scores 0.90 and 0.60: the high band is non-empty, so the tier is
"auto-close" with the 0.90 candidate on top. -/
theorem claim1_witness :
    (classifyDuplicates false (pct 75) []
      [⟨some 7, pct 90, some "t7"⟩, ⟨some 12, pct 60, some "t12"⟩] 99 false).duplicateAction =
        "auto-close" ∧
    ∃ c, (classifyDuplicates false (pct 75) []
        [⟨some 7, pct 90, some "t7"⟩, ⟨some 12, pct 60, some "t12"⟩] 99 false).topMatch =
          some c ∧
      c ∈ verifiedHighOf false (pct 75) []
        (duplicatesOf [⟨some 7, pct 90, some "t7"⟩, ⟨some 12, pct 60, some "t12"⟩] 99) ∧
      ∀ y ∈ verifiedHighOf false (pct 75) []
          (duplicatesOf [⟨some 7, pct 90, some "t7"⟩, ⟨some 12, pct 60, some "t12"⟩] 99),
        y.similarity ≤ c.similarity :=
  (claim1_three_tier_classification false (pct 75) []
    [⟨some 7, pct 90, some "t7"⟩, ⟨some 12, pct 60, some "t12"⟩] 99 false).2.2.2.1 (by decide)

/-- Claim C2: the "auto-close" tier sets `shouldUpdateVector = false`
and `shouldAutoClose = !isEditingExistingIssue`, while the
"flag-related" and "unique" tiers set `shouldUpdateVector = true` and
`shouldAutoClose = false`. -/
theorem claim2_side_effect_flags (aiEnabled : Bool) (thr : ℚ)
    (verdicts : List (Int × AIVerdict)) (results : List QueryMatch)
    (selfId : Int) (isEditing : Bool) :
    ((classifyDuplicates aiEnabled thr verdicts results selfId isEditing).duplicateAction =
        "auto-close" →
      (classifyDuplicates aiEnabled thr verdicts results selfId isEditing).shouldUpdateVector =
        false ∧
      (classifyDuplicates aiEnabled thr verdicts results selfId isEditing).shouldAutoClose =
        !isEditing) ∧
    ((classifyDuplicates aiEnabled thr verdicts results selfId isEditing).duplicateAction =
        "flag-related" ∨
     (classifyDuplicates aiEnabled thr verdicts results selfId isEditing).duplicateAction =
        "unique" →
      (classifyDuplicates aiEnabled thr verdicts results selfId isEditing).shouldUpdateVector =
        true ∧
      (classifyDuplicates aiEnabled thr verdicts results selfId isEditing).shouldAutoClose =
        false) := by
  simp only [classifyDuplicates]
  split
  · split
    · constructor
      · intro h
        simp at h
      · intro _
        exact ⟨rfl, rfl⟩
    · constructor
      · intro h
        simp at h
      · intro _
        exact ⟨rfl, rfl⟩
  · constructor
    · intro _
      exact ⟨rfl, rfl⟩
    · intro h
      rcases h with h | h <;> simp at h

/-- Witness for claim C2 at the high-band scenario: the decision is
"auto-close", so the vector is not persisted and a brand-new issue is
auto-closed. -/
theorem claim2_witness :
    (classifyDuplicates false (pct 75) [] [⟨some 7, pct 90, some "t7"⟩] 99
        false).shouldUpdateVector = false ∧
    (classifyDuplicates false (pct 75) [] [⟨some 7, pct 90, some "t7"⟩] 99
        false).shouldAutoClose = !false :=
  (claim2_side_effect_flags false (pct 75) [] [⟨some 7, pct 90, some "t7"⟩] 99 false).1 (by decide)

/-- Claim C5: a candidate carrying the subject issue's own number is
removed before band partitioning; classification is unchanged by the
removal and such a candidate never becomes `topMatch`. -/
theorem claim5_self_exclusion (aiEnabled : Bool) (thr : ℚ)
    (verdicts : List (Int × AIVerdict)) (results : List QueryMatch)
    (selfId : Int) (isEditing : Bool) :
    classifyDuplicates aiEnabled thr verdicts results selfId isEditing =
      classifyDuplicates aiEnabled thr verdicts (filteredResultsOf results selfId) selfId
        isEditing ∧
    ∀ c, (classifyDuplicates aiEnabled thr verdicts results selfId isEditing).topMatch =
        some c → c.number ≠ some selfId := by
  constructor
  · have hff : filteredResultsOf (filteredResultsOf results selfId) selfId =
        filteredResultsOf results selfId := by
      unfold filteredResultsOf
      rw [List.filter_filter]
      simp only [Bool.and_self]
    have hds : duplicatesOf results selfId =
        duplicatesOf (filteredResultsOf results selfId) selfId := by
      unfold duplicatesOf
      rw [hff]
    simp only [classifyDuplicates, hds]
  · intro c hc
    exact number_ne_of_mem_duplicatesOf (topMatch_mem hc)

/-- Witness for claim C5: with the issue's own stale vector (number 99,
score 0.95) among the matches, classification equals the self-excluded
classification and the top match is the unrelated issue 12. -/
theorem claim5_witness :
    classifyDuplicates false (pct 75) []
        [⟨some 99, pct 95, some "self"⟩, ⟨some 12, pct 60, some "t"⟩] 99 false =
      classifyDuplicates false (pct 75) []
        (filteredResultsOf [⟨some 99, pct 95, some "self"⟩, ⟨some 12, pct 60, some "t"⟩] 99) 99
        false ∧
    (⟨some 12, pct 60, "t"⟩ : Candidate).number ≠ some 99 := by
  have h := claim5_self_exclusion false (pct 75) []
    [⟨some 99, pct 95, some "self"⟩, ⟨some 12, pct 60, some "t"⟩] 99 false
  exact ⟨h.1, h.2 ⟨some 12, pct 60, "t"⟩ (by decide)⟩

/-- Claim C6: the verifier veto is narrowing-only — with verification
enabled each band is a subset of the corresponding unverified band, and
with verification disabled the bands pass through unfiltered and the
classification is identical to the unverified baseline for every
verdict map. -/
theorem claim6_veto_narrowing (thr : ℚ) (verdicts : List (Int × AIVerdict))
    (results : List QueryMatch) (selfId : Int) (isEditing : Bool) :
    (∀ c ∈ verifiedHighOf true thr verdicts (duplicatesOf results selfId),
        c ∈ verifiedHighOf false thr verdicts (duplicatesOf results selfId)) ∧
    (∀ c ∈ verifiedMedOf true thr verdicts (duplicatesOf results selfId),
        c ∈ verifiedMedOf false thr verdicts (duplicatesOf results selfId)) ∧
    verifiedHighOf false thr verdicts (duplicatesOf results selfId) =
      highBandOf (duplicatesOf results selfId) ∧
    verifiedMedOf false thr verdicts (duplicatesOf results selfId) =
      mediumBandOf (duplicatesOf results selfId) ∧
    classifyDuplicates false thr verdicts results selfId isEditing =
      classifyDuplicates false thr [] results selfId isEditing := by
  refine ⟨?_, ?_, rfl, rfl, rfl⟩
  · intro c hc
    exact mem_verifiedHighOf.mpr ⟨(mem_verifiedHighOf.mp hc).1, fun h => nomatch h⟩
  · intro c hc
    exact mem_verifiedMedOf.mpr ⟨(mem_verifiedMedOf.mp hc).1, fun h => nomatch h⟩

/-- Witness for claim C6: a positively verified high candidate survives
the veto and is, in particular, in the unverified high band. -/
theorem claim6_witness :
    (⟨some 7, pct 90, "t7"⟩ : Candidate) ∈ verifiedHighOf false (pct 75)
        [(7, ⟨true, pct 80, "same"⟩)]
        (duplicatesOf [⟨some 7, pct 90, some "t7"⟩] 99) ∧
    classifyDuplicates false (pct 75) [(7, ⟨true, pct 80, "same"⟩)]
        [⟨some 7, pct 90, some "t7"⟩] 99 false =
      classifyDuplicates false (pct 75) [] [⟨some 7, pct 90, some "t7"⟩] 99 false := by
  have h := claim6_veto_narrowing (pct 75) [(7, ⟨true, pct 80, "same"⟩)]
    [⟨some 7, pct 90, some "t7"⟩] 99 false
  exact ⟨h.1 ⟨some 7, pct 90, "t7"⟩ (by decide), h.2.2.2.2⟩

/-- Claim C3 counterexample: with verification enabled, a 0.90-score
candidate with no recorded verdict (the verifier was absent, errored, or
returned an invalid response, so nothing entered `aiVerdicts`) is vetoed
out of the high band and the tier drops to "unique"; with verification
disabled the same input yields "auto-close".  So a missing verdict does
remove the candidate from its band and does change the resulting tier. -/
theorem claim3_counterexample :
    (classifyDuplicates true (pct 75) [] [⟨some 7, pct 90, some "t"⟩] 1
        false).duplicateAction = "unique" ∧
    (classifyDuplicates true (pct 75) [] [⟨some 7, pct 90, some "t"⟩] 1
        false).topMatch = none ∧
    (classifyDuplicates false (pct 75) [] [⟨some 7, pct 90, some "t"⟩] 1
        false).duplicateAction = "auto-close" := by
  decide

/-- Claim C3 amended: when secondary verification is enabled, a
candidate with no valid verdict is vetoed exactly like one with a
negative or low-confidence verdict — a candidate survives in a band only
when a valid verdict with `is_duplicate = true` and confidence at least
the threshold was recorded for it, so missing or invalid verdicts empty
the candidate out of its band and can lower the tier. -/
theorem claim3_amended_missing_verdict_vetoes (thr : ℚ)
    (verdicts : List (Int × AIVerdict)) (results : List QueryMatch)
    (selfId : Int) (c : Candidate) :
    (lookupVerdict verdicts c.number = none →
      c ∉ verifiedHighOf true thr verdicts (duplicatesOf results selfId) ∧
      c ∉ verifiedMedOf true thr verdicts (duplicatesOf results selfId)) ∧
    (c ∈ verifiedHighOf true thr verdicts (duplicatesOf results selfId) ∨
     c ∈ verifiedMedOf true thr verdicts (duplicatesOf results selfId) →
      ∃ v, lookupVerdict verdicts c.number = some v ∧ v.is_duplicate = true ∧
        thr ≤ v.confidence) := by
  constructor
  · intro hnone
    constructor
    · intro hc
      have hpass := (mem_verifiedHighOf.mp hc).2 rfl
      simp [passesAI, hnone] at hpass
    · intro hc
      have hpass := (mem_verifiedMedOf.mp hc).2 rfl
      simp [passesAI, hnone] at hpass
  · intro hc
    have hpass : passesAI thr verdicts c = true := by
      rcases hc with hc | hc
      · exact (mem_verifiedHighOf.mp hc).2 rfl
      · exact (mem_verifiedMedOf.mp hc).2 rfl
    unfold passesAI at hpass
    cases hv : lookupVerdict verdicts c.number with
    | none => rw [hv] at hpass; simp at hpass
    | some v =>
      rw [hv] at hpass
      simp only [Bool.and_eq_true, decide_eq_true_eq] at hpass
      exact ⟨v, rfl, hpass.1, hpass.2⟩

/-- Witness for the amended claim C3: a 0.90-score candidate with no
entry in the verdict map is in neither verified band. -/
theorem claim3_amended_witness :
    (⟨some 9, pct 90, "t"⟩ : Candidate) ∉
      verifiedHighOf true (pct 75) [(7, ⟨true, pct 80, "r"⟩)]
        (duplicatesOf [⟨some 9, pct 90, some "t"⟩] 1) ∧
    (⟨some 9, pct 90, "t"⟩ : Candidate) ∉
      verifiedMedOf true (pct 75) [(7, ⟨true, pct 80, "r"⟩)]
        (duplicatesOf [⟨some 9, pct 90, some "t"⟩] 1) := by
  have h := claim3_amended_missing_verdict_vetoes (pct 75) [(7, ⟨true, pct 80, "r"⟩)]
    [⟨some 9, pct 90, some "t"⟩] 1 ⟨some 9, pct 90, "t"⟩
  exact h.1 (by decide)

/-- Claim C4 counterexample: the in-band fallback vector of
`generateEmbedding` is filled with 0.01, not zero, and a thrown provider
error (an exception surviving `retryApiCall`) propagates out of the
operation instead of producing any fallback vector. -/
theorem claim4_counterexample :
    processEmbeddingResponse .errorField = List.replicate 1024 (pct 1) ∧
    processEmbeddingResponse .errorField ≠ List.replicate 1024 0 ∧
    generateEmbedding .thrown = none := by
  refine ⟨rfl, ?_, rfl⟩
  intro h
  have h2 : List.replicate 1024 (pct 1) = List.replicate 1024 (0 : ℚ) := h
  have h3 := (List.replicate_right_inj (by norm_num : (1024 : ℕ) ≠ 0)).mp h2
  exact absurd h3 (by decide)

/-- Claim C4 amended: every vector actually returned by the embedding
operation has length exactly 1024 — successful value lists are
zero-padded or truncated to that length — but the fallback for a
malformed (in-band error) response is filled with 0.01 rather than zero,
and a thrown provider error propagates with no fallback vector. -/
theorem claim4_amended_embedding :
    (∀ (o : ProviderOutcome) (v : List ℚ), generateEmbedding o = some v →
      v.length = 1024) ∧
    (∀ vs : List ℚ, vs.length ≤ 1024 →
      processEmbeddingResponse (.ok vs) = vs ++ List.replicate (1024 - vs.length) 0) ∧
    (∀ vs : List ℚ, 1024 < vs.length →
      processEmbeddingResponse (.ok vs) = vs.take 1024) ∧
    generateEmbedding (.response .errorField) = some (List.replicate 1024 (pct 1)) ∧
    generateEmbedding .thrown = none := by
  refine ⟨?_, ?_, ?_, rfl, rfl⟩
  · intro o v h
    cases o with
    | thrown => simp [generateEmbedding] at h
    | response r =>
      simp only [generateEmbedding] at h
      injection h with h
      subst h
      cases r with
      | errorField => simp only [processEmbeddingResponse, List.length_replicate]
      | ok vs =>
        simp only [processEmbeddingResponse]
        split
        · rename_i hlt
          simp only [List.length_append, List.length_replicate]
          omega
        · rename_i hge
          split
          · rename_i hgt
            simp only [List.length_take]
            omega
          · rename_i hgt
            omega
  · intro vs hle
    simp only [processEmbeddingResponse]
    split
    · rfl
    · rename_i h1
      split
      · rename_i h2
        omega
      · rename_i h2
        have hlen : vs.length = 1024 := by omega
        simp [hlen]
  · intro vs hgt
    simp only [processEmbeddingResponse]
    split
    · rename_i h1
      omega
    · rfl

/-- Witness for the amended claim C4: the fallback vector has length
1024, and a one-element successful response is padded with 1023
zeros. -/
theorem claim4_amended_witness :
    (List.replicate 1024 (pct 1)).length = 1024 ∧
    processEmbeddingResponse (.ok [1]) = [1] ++ List.replicate 1023 (0 : ℚ) := by
  constructor
  · exact claim4_amended_embedding.1 (.response .errorField) _ rfl
  · have h := claim4_amended_embedding.2.1 [1] (by norm_num)
    have e : (1024 - ([1] : List ℚ).length) = 1023 := by norm_num
    rw [e] at h
    exact h

/-! Helper lemmas about the reconciliation protocol. -/

theorem countIssue_deleteByIds_self (st : List VectorRec) (n : Int) :
    countIssue (deleteByIds st (findExistingVectors st n)) n = 0 := by
  unfold countIssue deleteByIds
  rw [List.length_eq_zero, List.filter_eq_nil_iff]
  intro r hr
  obtain ⟨hrst, hnc⟩ := List.mem_filter.mp hr
  simp only [decide_eq_true_eq]
  intro hrn
  have hmem : r.vid ∈ findExistingVectors st n := by
    unfold findExistingVectors
    exact List.mem_map.mpr ⟨r, List.mem_filter.mpr ⟨hrst, by simp [hrn]⟩, rfl⟩
  have hc : (findExistingVectors st n).contains r.vid = true := by simpa using hmem
  rw [hc] at hnc
  simp at hnc

theorem countIssue_filter_le (st : List VectorRec) (q : VectorRec → Bool) (n : Int) :
    countIssue (st.filter q) n ≤ countIssue st n := by
  unfold countIssue
  exact ((List.filter_sublist st).filter _).length_le

theorem countIssue_upsert_of_zero (st : List VectorRec) (rec : VectorRec) (n : Int)
    (h0 : countIssue st n = 0) (hn : rec.issue_number = n) :
    countIssue (upsertRec st rec) n = 1 := by
  unfold countIssue upsertRec
  rw [List.filter_append]
  have h1 : countIssue (st.filter fun r => r.vid ≠ rec.vid) n = 0 :=
    Nat.le_zero.mp (h0 ▸ countIssue_filter_le st _ n)
  unfold countIssue at h1
  rw [List.length_append, h1]
  simp [hn]

theorem countIssue_eq_zero_of_no_existing (st : List VectorRec) (n : Int)
    (h : findExistingVectors st n = []) : countIssue st n = 0 := by
  unfold findExistingVectors at h
  unfold countIssue
  rw [List.map_eq_nil_iff.mp h]
  rfl

theorem countIssue_stepIssue_check_persist (n : Int) (st : List VectorRec) (fresh : Nat) :
    countIssue (stepIssue n st (.check true fresh)) n = 1 := by
  cases he : (findExistingVectors st n).isEmpty
  · have hstep : stepIssue n st (.check true fresh) =
        upsertRec (deleteByIds st (findExistingVectors st n)) ⟨fresh, n⟩ := by
      simp [stepIssue, updateVectors, he]
    rw [hstep]
    exact countIssue_upsert_of_zero _ _ _ (countIssue_deleteByIds_self st n) rfl
  · have hstep : stepIssue n st (.check true fresh) = upsertRec st ⟨fresh, n⟩ := by
      simp [stepIssue, updateVectors, he]
    rw [hstep]
    exact countIssue_upsert_of_zero _ _ _
      (countIssue_eq_zero_of_no_existing st n (List.isEmpty_iff.mp he)) rfl

theorem countIssue_stepIssue_close (n : Int) (st : List VectorRec) :
    countIssue (stepIssue n st .close) n = 0 :=
  countIssue_deleteByIds_self st n

theorem countIssue_stepIssue_le (n : Int) (st : List VectorRec) (e : IssueEvent)
    (h : countIssue st n ≤ 1) : countIssue (stepIssue n st e) n ≤ 1 := by
  cases e with
  | close =>
    rw [countIssue_stepIssue_close]
    omega
  | check su fresh =>
    cases su
    · simpa [stepIssue, updateVectors] using h
    · rw [countIssue_stepIssue_check_persist]

/-- Claim C7: reconciliation preserves at-most-one-vector-per-issue —
with non-empty existing ids the old records are deleted and exactly one
new record is inserted; the insert is never attempted when the delete
throws (the state is left unchanged); a persisting run leaves exactly
one record for the issue, closing leaves zero, and any event sequence
for a single issue keeps the per-issue record count at most one. -/
theorem claim7_reconciliation (n : Int) :
    (∀ (st : List VectorRec) (ids : List Nat) (rec : VectorRec), ids ≠ [] →
      updateVectors st true true ids rec true = (st, false)) ∧
    (∀ (st : List VectorRec) (ids : List Nat) (rec : VectorRec), ids ≠ [] →
      updateVectors st true true ids rec false =
        (upsertRec (deleteByIds st ids) rec, true)) ∧
    (∀ (st : List VectorRec) (fresh : Nat),
      countIssue (stepIssue n st (.check true fresh)) n = 1) ∧
    (∀ st : List VectorRec, countIssue (stepIssue n st .close) n = 0) ∧
    (∀ (evs : List IssueEvent) (st : List VectorRec), countIssue st n ≤ 1 →
      countIssue (evs.foldl (stepIssue n) st) n ≤ 1) := by
  refine ⟨?_, ?_, countIssue_stepIssue_check_persist n, countIssue_stepIssue_close n, ?_⟩
  · intro st ids rec hne
    cases ids with
    | nil => exact absurd rfl hne
    | cons a t => simp [updateVectors]
  · intro st ids rec hne
    cases ids with
    | nil => exact absurd rfl hne
    | cons a t => simp [updateVectors]
  · intro evs
    induction evs with
    | nil => intro st h; exact h
    | cons e t ih =>
      intro st h
      exact ih _ (countIssue_stepIssue_le n st e h)

/-- Witness for claim C7: a failing delete aborts reconciliation on a
one-record index, one persisting run leaves exactly one record, and a
create-edit-close sequence keeps the count at most one. -/
theorem claim7_witness :
    updateVectors [⟨1, 5⟩] true true [1] ⟨2, 5⟩ true = ([⟨1, 5⟩], false) ∧
    countIssue (stepIssue 5 [⟨1, 5⟩] (.check true 2)) 5 = 1 ∧
    countIssue ([IssueEvent.check true 2, .check true 3, .close].foldl (stepIssue 5) []) 5
      ≤ 1 := by
  have h := claim7_reconciliation 5
  exact ⟨h.1 [⟨1, 5⟩] [1] ⟨2, 5⟩ (by decide), h.2.2.1 [⟨1, 5⟩] 2,
    h.2.2.2.2 [.check true 2, .check true 3, .close] [] (by decide)⟩

/-- Claim C8: when the trimmed combined title and body text is shorter
than 10 characters, the run stops with the distinct "too short" outcome
before any embedding or classification work, for every candidate set,
and the vector index is left unchanged. -/
theorem claim8_short_input (title : String) (body : Option String)
    (entries : List QueryMatch) (selfId : Int) (aiEnabled : Bool) (thr : ℚ)
    (verdicts : List (Int × AIVerdict)) (st : List VectorRec) (fresh : Nat)
    (hshort : (combinedIssueText title body).length < 10) :
    runCheckIssue false title body entries selfId aiEnabled thr verdicts st fresh =
      (.tooShort, st) := by
  simp [runCheckIssue, hshort]

/-- Witness for claim C8: the three-character issue "bug" with no body
terminates as "too short" and leaves the index untouched. -/
theorem claim8_witness :
    runCheckIssue false "bug" none [⟨some 7, pct 90, some "t"⟩] 1 false (pct 75) []
      [⟨9, 3⟩] 4 = (.tooShort, [⟨9, 3⟩]) :=
  claim8_short_input "bug" none [⟨some 7, pct 90, some "t"⟩] 1 false (pct 75) []
    [⟨9, 3⟩] 4 (by decide)

theorem length_orderedInsertDesc (score : α → ℚ) (x : α) :
    ∀ l : List α, (orderedInsertDesc score x l).length = l.length + 1 := by
  intro l
  induction l with
  | nil => rfl
  | cons y ys ih =>
    simp only [orderedInsertDesc]
    split
    · simp [ih]
    · simp

theorem length_sortByScoreDesc (score : α → ℚ) :
    ∀ l : List α, (sortByScoreDesc score l).length = l.length := by
  intro l
  induction l with
  | nil => rfl
  | cons y ys ih =>
    simp only [sortByScoreDesc, length_orderedInsertDesc, ih, List.length_cons]

/-- Claim C10: the nearest-neighbour query of `run` requests only the
top 10 matches, so at most 10 candidates (possibly including the
issue's own stale self-match, which is removed later) ever reach
classification; every queried match comes from the index, the
classification is a function of the top-10 result alone, and an issue
absent from the top 10 can never enter a band or become `topMatch`. -/
theorem claim10_topk_query (entries : List QueryMatch) (selfId : Int)
    (aiEnabled : Bool) (thr : ℚ) (verdicts : List (Int × AIVerdict))
    (isEditing : Bool) :
    (queryTopK entries 10).length ≤ 10 ∧
    (∀ r ∈ queryTopK entries 10, r ∈ entries) ∧
    (duplicatesOf (queryTopK entries 10) selfId).length ≤ 10 ∧
    (∀ entries' : List QueryMatch, queryTopK entries' 10 = queryTopK entries 10 →
      classifyDuplicates aiEnabled thr verdicts (queryTopK entries' 10) selfId isEditing =
        classifyDuplicates aiEnabled thr verdicts (queryTopK entries 10) selfId isEditing) ∧
    (∀ j : Int, (∀ r ∈ queryTopK entries 10, r.issue_number ≠ some j) →
      (∀ c ∈ duplicatesOf (queryTopK entries 10) selfId, c.number ≠ some j) ∧
      ∀ c, (classifyDuplicates aiEnabled thr verdicts (queryTopK entries 10) selfId
          isEditing).topMatch = some c → c.number ≠ some j) := by
  refine ⟨?_, ?_, ?_, ?_, ?_⟩
  · exact List.length_take_le 10 _
  · intro r hr
    unfold queryTopK at hr
    exact (mem_sortByScoreDesc _ r _).mp ((List.take_sublist 10 _).subset hr)
  · unfold duplicatesOf
    rw [length_sortByScoreDesc, List.length_map]
    calc (((filteredResultsOf (queryTopK entries 10) selfId).filter
          (fun r => decide (pct 55 ≤ r.score)))).length
        ≤ (filteredResultsOf (queryTopK entries 10) selfId).length :=
          List.length_filter_le _ _
      _ ≤ (queryTopK entries 10).length := List.length_filter_le _ _
      _ ≤ 10 := List.length_take_le 10 _
  · intro entries' h
    rw [h]
  · intro j hj
    have hmem : ∀ c ∈ duplicatesOf (queryTopK entries 10) selfId, c.number ≠ some j := by
      intro c hc
      obtain ⟨r, hrtop, _, _, hcand⟩ := mem_duplicatesOf.mp hc
      subst hcand
      unfold toCandidate
      cases hri : r.issue_number with
      | none => simp
      | some m =>
        simp only
        split
        · simp
        · intro habs
          injection habs with habs
          subst habs
          exact hj r hrtop (by rw [hri])
    exact ⟨hmem, fun c hc => hmem c (topMatch_mem hc)⟩

/-- Witness for claim C10: on a one-entry index the query returns at
most 10 matches and the concrete top match cannot carry an issue number
absent from the queried top 10. -/
theorem claim10_witness :
    (queryTopK [⟨some 7, pct 90, some "t"⟩] 10).length ≤ 10 ∧
    (⟨some 7, pct 90, "t"⟩ : Candidate).number ≠ some 3 := by
  have h := claim10_topk_query [⟨some 7, pct 90, some "t"⟩] 1 false (pct 75) [] false
  exact ⟨h.1, (h.2.2.2.2 3 (by decide)).2 ⟨some 7, pct 90, "t"⟩ (by decide)⟩

/-! Helper lemmas about the prompt sanitizer. -/

theorem length_mk (l : List Char) : (String.mk l).length = l.length := rfl

theorem collapseNewlines_forall (P : Char → Prop) :
    ∀ l : List Char, (∀ c ∈ l, P c) → ∀ c ∈ collapseNewlines l, P c := by
  intro l
  induction l with
  | nil =>
    intro _ c hc
    simp [collapseNewlines] at hc
  | cons c0 rest ih =>
    intro h c hc
    simp only [collapseNewlines] at hc
    split at hc
    · exact ih (fun d hd => h d (List.mem_cons_of_mem _ hd)) c hc
    · rcases List.mem_cons.mp hc with rfl | hc'
      · exact h c (List.mem_cons_self _ _)
      · exact ih (fun d hd => h d (List.mem_cons_of_mem _ hd)) c hc'

theorem collapseNewlines_id :
    ∀ l : List Char, (∀ c ∈ l, c ≠ '\n') → collapseNewlines l = l := by
  intro l
  induction l with
  | nil => intro _; rfl
  | cons c0 rest ih =>
    intro h
    simp only [collapseNewlines]
    rw [if_neg fun hcond => h c0 (List.mem_cons_self _ _) hcond.1]
    rw [ih fun d hd => h d (List.mem_cons_of_mem _ hd)]

theorem escapeFences_id :
    ∀ l : List Char, (∀ c ∈ l, c ≠ backquote) → escapeFences l = l := by
  intro l
  induction l using escapeFences.induct with
  | case1 c1 c2 c3 rest hcond ih =>
    intro h
    exact absurd hcond.1 (h c1 (List.mem_cons_self _ _))
  | case2 c1 c2 c3 rest hcond ih =>
    intro h
    simp only [escapeFences]
    rw [if_neg hcond]
    rw [ih fun d hd => h d (List.mem_cons_of_mem _ hd)]
  | case3 l hshape =>
    intro _
    rcases l with _ | ⟨a, _ | ⟨b, _ | ⟨d, t⟩⟩⟩
    · rfl
    · rfl
    · rfl
    · exact absurd rfl (hshape a b d t)

theorem matchScriptTag_none {c : Char} (rest : List Char) (h : c ≠ '<') :
    matchScriptTag (c :: rest) = none := by
  simp only [matchScriptTag]
  rw [if_neg h]

theorem stripScriptTagsAux_id :
    ∀ (fuel : Nat) (l : List Char), (∀ c ∈ l, c ≠ '<') →
      stripScriptTagsAux fuel l = l := by
  intro fuel
  induction fuel with
  | zero => intro l _; rfl
  | succ fuel ih =>
    intro l h
    cases l with
    | nil => rfl
    | cons c rest =>
      simp only [stripScriptTagsAux,
        matchScriptTag_none rest (h c (List.mem_cons_self _ _))]
      rw [ih rest fun d hd => h d (List.mem_cons_of_mem _ hd)]

theorem matchCI_cons_none {t c : Char} (ts rest : List Char) (h : c.toLower ≠ t) :
    matchCI (t :: ts) (c :: rest) = none := by
  simp only [matchCI]
  rw [if_neg h]

theorem replaceTokenAux_id (t : Char) (ts rep : List Char) :
    ∀ (fuel : Nat) (l : List Char), (∀ c ∈ l, c.toLower ≠ t) →
      replaceTokenAux t ts rep fuel l = l := by
  intro fuel
  induction fuel with
  | zero => intro l _; rfl
  | succ fuel ih =>
    intro l h
    cases l with
    | nil => rfl
    | cons c rest =>
      simp only [replaceTokenAux,
        matchCI_cons_none ts rest (h c (List.mem_cons_self _ _))]
      rw [ih rest fun d hd => h d (List.mem_cons_of_mem _ hd)]

theorem sanitizeForPrompt_all_a (n : Nat) :
    sanitizeForPrompt (String.mk (List.replicate n 'a')) =
      String.mk (List.replicate n 'a') := by
  have hall : ∀ c ∈ List.replicate n 'a', c = 'a' := fun c hc =>
    List.eq_of_mem_replicate hc
  unfold sanitizeForPrompt
  have h1 : escapeFences (String.mk (List.replicate n 'a')).data =
      List.replicate n 'a' :=
    escapeFences_id _ fun c hc => by rw [hall c hc]; decide
  rw [h1]
  have h2 : stripScriptTags (List.replicate n 'a') = List.replicate n 'a' :=
    stripScriptTagsAux_id _ _ fun c hc => by rw [hall c hc]; decide
  rw [h2]
  have h3 : replaceToken '@' ['a', 's', 's', 'i', 's', 't', 'a', 'n', 't']
      ('@' :: zwsp :: ['a', 's', 's', 'i', 's', 't', 'a', 'n', 't'])
      (List.replicate n 'a') = List.replicate n 'a' :=
    replaceTokenAux_id _ _ _ _ _ fun c hc => by rw [hall c hc]; decide
  rw [h3]
  have h4 : replaceToken '@' ['s', 'y', 's', 't', 'e', 'm']
      ('@' :: zwsp :: ['s', 'y', 's', 't', 'e', 'm'])
      (List.replicate n 'a') = List.replicate n 'a' :=
    replaceTokenAux_id _ _ _ _ _ fun c hc => by rw [hall c hc]; decide
  rw [h4]
  have h5 : (List.replicate n 'a').filter (fun c => !isBidiControl c) =
      List.replicate n 'a' :=
    List.filter_eq_self.mpr fun c hc => by rw [hall c hc]; decide
  rw [h5]
  rw [collapseNewlines_id _ fun c hc => by rw [hall c hc]; decide]

/-- Claim C9 counterexample: the token neutralizer inserts a zero-width
space U+200B, not a zero-width joiner U+200D, and the title fields of
the verification prompt are not truncated — a 4001-character title is
included at full length, exceeding the claimed 4000-character bound. -/
theorem claim9_counterexample :
    sanitizeForPrompt "@assistant" = "@\u200Bassistant" ∧
    sanitizeForPrompt "@assistant" ≠ "@\u200Dassistant" ∧
    promptTitleField (String.mk (List.replicate 4001 'a')) =
      String.mk (List.replicate 4001 'a') ∧
    4000 < (promptTitleField (String.mk (List.replicate 4001 'a'))).length := by
  have hid : promptTitleField (String.mk (List.replicate 4001 'a')) =
      String.mk (List.replicate 4001 'a') := sanitizeForPrompt_all_a 4001
  refine ⟨by decide, by decide, hid, ?_⟩
  rw [hid, length_mk, List.length_replicate]
  norm_num

/-- Claim C9 amended: each prompt field is sanitized by the source's
replace chain — code fences escaped, script-tag markers stripped,
`@assistant` and `@system` neutralized with a zero-width space U+200B,
the bidirectional controls U+202A/U+202B/U+202D/U+202E stripped, and
runs of three or more newlines collapsed — and the body fields, but not
the title fields, are additionally truncated to at most 4000
characters. -/
theorem claim9_amended_sanitization (title body : String) :
    promptTitleField title = sanitizeForPrompt title ∧
    promptBodyField body = truncate4000 (sanitizeForPrompt body) ∧
    (promptBodyField body).length ≤ 4000 ∧
    (∀ c ∈ (sanitizeForPrompt title).data, isBidiControl c = false) ∧
    (∀ c ∈ (sanitizeForPrompt body).data, isBidiControl c = false) := by
  have hbidi : ∀ s : String, ∀ c ∈ (sanitizeForPrompt s).data, isBidiControl c = false := by
    intro s c hc
    have hc' : c ∈ collapseNewlines
        ((replaceToken '@' ['s', 'y', 's', 't', 'e', 'm']
            ('@' :: zwsp :: ['s', 'y', 's', 't', 'e', 'm'])
          (replaceToken '@' ['a', 's', 's', 'i', 's', 't', 'a', 'n', 't']
              ('@' :: zwsp :: ['a', 's', 's', 'i', 's', 't', 'a', 'n', 't'])
            (stripScriptTags (escapeFences s.data)))).filter
          (fun c => !isBidiControl c)) := hc
    have hmem := collapseNewlines_forall (fun c => isBidiControl c = false) _
      (fun d hd => by
        have := (List.mem_filter.mp hd).2
        simpa using this) c hc'
    exact hmem
  refine ⟨rfl, rfl, ?_, hbidi title, hbidi body⟩
  unfold promptBodyField truncate4000
  split
  · rename_i h
    rw [length_mk, List.length_take]
    omega
  · rename_i h
    omega

/-- Witness for the amended claim C9: an overlong body field is capped
at 4000 characters, and a sanitized field containing a right-to-left
override loses it. -/
theorem claim9_amended_witness :
    (promptBodyField (String.mk (List.replicate 4100 'a'))).length ≤ 4000 ∧
    isBidiControl '!' = false := by
  have h := claim9_amended_sanitization "t" (String.mk (List.replicate 4100 'a'))
  refine ⟨h.2.2.1, ?_⟩
  have h2 := claim9_amended_sanitization (String.mk ['!', Char.ofNat 0x202E]) "b"
  exact h2.2.2.2.1 '!' (by decide)

end DupBot
